import Mathlib

/-!
Shallow embedding of the web-tac-toe server core: the two rules engines
(`TicTacToeGame`, `Connect4Game`) translated from
`server/games/TicTacToeGame.js` and `server/games/Connect4Game.js`, and the
socket session coordinator (join / move / reset / disconnect handlers)
translated from the server entry point.

Conventions of the embedding:
* a board cell is `Option Nat` — `none` models JavaScript `null` (empty),
  `some p` models the owning player's index;
* an indexed read on a board is total and returns a `JSCell`, with
  `JSCell.undef` modelling JavaScript `undefined` for an out-of-range index
  (the source compares cells against `null` with strict equality, so
  `undefined` and `null` must stay distinct);
* `makeMove` returns `Option` state: `none` models the source returning the
  *same* state object (reference identity) on an invalid move, `some s1`
  models returning the freshly allocated updated state object.
-/

/-- Game status values, the strings `'waiting' | 'playing' | 'won' | 'draw'`
in the source. -/
inductive Status where
  | waiting
  | playing
  | won
  | draw
deriving DecidableEq

/-- Result of a JavaScript indexed read on a board row: `undefined` when the
index is out of range, `null` for an empty cell, or the owning player's
index. -/
inductive JSCell where
  | undef
  | null
  | player (n : Nat)
deriving DecidableEq

/-- JavaScript winner values: a player cell maps to that player's index,
`null` and `undefined` both map to "no winner". -/
def JSCell.toWinner : JSCell → Option Nat
  | JSCell.player n => some n
  | _ => none

/-- `b[i]` for a natural-number index, with JavaScript semantics: an
out-of-range read yields `undefined`. -/
def jsCellAt (b : List (Option Nat)) (i : Nat) : JSCell :=
  match b[i]? with
  | none => JSCell.undef
  | some none => JSCell.null
  | some (some n) => JSCell.player n

/-- `b[i]` for an arbitrary (possibly negative) integer index. -/
def jsIndex (b : List (Option Nat)) (i : Int) : JSCell :=
  if i < 0 then JSCell.undef else jsCellAt b i.toNat

/-- A tic-tac-toe move payload `{ index }`. -/
structure TTTMove where
  index : Int
deriving DecidableEq

/-- The tic-tac-toe `GameState` object. -/
structure TTTState where
  board : List (Option Nat)
  currentPlayer : Nat
  winner : Option Nat
  status : Status
  winningPattern : Option (List Nat)
deriving DecidableEq

namespace TicTacToeGame

/-- `TicTacToeGame.init`. -/
def init : TTTState :=
  { board := List.replicate 9 none
    currentPlayer := 0
    winner := none
    status := Status.waiting
    winningPattern := none }

/-- `TicTacToeGame.isValidMove`: turn check, status check, then the
occupied-cell check `gameState.board[move.index] !== null` (there is no
explicit bounds check; an out-of-range read gives `undefined` which is not
strictly equal to `null`). -/
def isValidMove (s : TTTState) (playerIndex : Nat) (move : TTTMove) : Bool :=
  (s.currentPlayer == playerIndex) &&
  (s.status == Status.playing) &&
  (jsIndex s.board move.index == JSCell.null)

/-- `TicTacToeGame.getNextPlayer`: `currentPlayer === 0 ? 1 : 0`. -/
def getNextPlayer (s : TTTState) : Nat :=
  if s.currentPlayer == 0 then 1 else 0

/-- The eight `winPatterns` of `TicTacToeGame.checkGameOver`. -/
def winPatterns : List (Nat × Nat × Nat) :=
  [(0, 1, 2), (3, 4, 5), (6, 7, 8),
   (0, 3, 6), (1, 4, 7), (2, 5, 8),
   (0, 4, 8), (2, 4, 6)]

/-- The per-pattern test of `TicTacToeGame.checkGameOver`:
`board[a] !== null && board[a] === board[b] && board[a] === board[c]`. -/
def winPred (b : List (Option Nat)) (pat : Nat × Nat × Nat) : Bool :=
  (jsCellAt b pat.1 != JSCell.null) &&
  (jsCellAt b pat.1 == jsCellAt b pat.2.1) &&
  (jsCellAt b pat.1 == jsCellAt b pat.2.2)

/-- Result object of `TicTacToeGame.checkGameOver` (`{isOver: false}` is
`notOver`). -/
inductive OverResult where
  | won (winner : JSCell) (pattern : List Nat)
  | draw
  | notOver
deriving DecidableEq

/-- `TicTacToeGame.checkGameOver`: scan the eight fixed triples in order;
report the first fully-owned one, else draw when the board has no `null`
cell, else not over. -/
def checkGameOver (s : TTTState) : OverResult :=
  match winPatterns.find? (winPred s.board) with
  | some pat => OverResult.won (jsCellAt s.board pat.1) [pat.1, pat.2.1, pat.2.2]
  | none =>
    if !(s.board.contains none) then OverResult.draw else OverResult.notOver

/-- `TicTacToeGame.makeMove`: reject invalid moves by returning the same
state object (modelled as `none`); otherwise clone, place the piece, then
apply `checkGameOver`: on a terminal result set status / winner / pattern,
else advance `currentPlayer`. -/
def makeMove (s : TTTState) (playerIndex : Nat) (move : TTTMove) : Option TTTState :=
  if isValidMove s playerIndex move then
    let s1 : TTTState := { s with board := s.board.set move.index.toNat (some playerIndex) }
    match checkGameOver s1 with
    | OverResult.won w pat =>
      some { s1 with status := Status.won, winner := w.toWinner, winningPattern := some pat }
    | OverResult.draw =>
      some { s1 with status := Status.draw, winner := none, winningPattern := none }
    | OverResult.notOver =>
      some { s1 with currentPlayer := getNextPlayer s1 }
  else
    none

/-- `TicTacToeGame.getMaxPlayers`. -/
def getMaxPlayers : Nat := 2

end TicTacToeGame

/-- Tic-tac-toe player attributes: `{ symbol: 'X' | 'O' }`. -/
structure TTTAttrs where
  symbol : String
deriving DecidableEq

/-- `TicTacToeGame.getPlayerSetup`: seat 0 gets `'X'`, any other seat `'O'`. -/
def TicTacToeGame.getPlayerSetup (playerIndex : Nat) : TTTAttrs :=
  { symbol := match playerIndex with | 0 => "X" | _ => "O" }

/-- A connect-four move payload `{ column }`. -/
structure C4Move where
  column : Int
deriving DecidableEq

/-- The connect-four `GameState` object. The board is 7 columns of 6 rows
(row 0 is the top of a column). -/
structure C4State where
  board : List (List (Option Nat))
  currentPlayer : Nat
  winner : Option Nat
  status : Status
  winningCells : Option (List (Nat × Nat))
deriving DecidableEq

/-- `board[x][y]` with JavaScript-style total lookup: out-of-range on either
coordinate yields `undefined`. -/
def c4CellAt (b : List (List (Option Nat))) (x y : Nat) : JSCell :=
  match b[x]? with
  | none => JSCell.undef
  | some col =>
    match col[y]? with
    | none => JSCell.undef
    | some none => JSCell.null
    | some (some n) => JSCell.player n

/-- The guard of the scanning loop in `Connect4Game.checkGameOver`:
`x >= 0 && x < 7 && y >= 0 && y < 6 && board[x][y] === playerIndex`
(the in-board cell at integer coordinates `(x, y)` is owned by `p`). -/
def c4Owned (b : List (List (Option Nat))) (p : Nat) (x y : Int) : Prop :=
  0 ≤ x ∧ x < 7 ∧ 0 ≤ y ∧ y < 6 ∧ c4CellAt b x.toNat y.toNat = JSCell.player p

instance (b : List (List (Option Nat))) (p : Nat) (x y : Int) :
    Decidable (c4Owned b p x y) := by
  unfold c4Owned; infer_instance

namespace Connect4Game

/-- `Connect4Game.init`: 7 columns × 6 rows, all empty. -/
def init : C4State :=
  { board := List.replicate 7 (List.replicate 6 none)
    currentPlayer := 0
    winner := none
    status := Status.waiting
    winningCells := none }

/-- `Connect4Game.isValidMove`: turn check, status check, explicit column
bounds check `!(move.column < 0 || move.column >= 7)`, then the full-column
check `board[move.column][0] !== null`. -/
def isValidMove (s : C4State) (playerIndex : Nat) (move : C4Move) : Bool :=
  (s.currentPlayer == playerIndex) &&
  (s.status == Status.playing) &&
  decide (0 ≤ move.column ∧ move.column < 7) &&
  (c4CellAt s.board move.column.toNat 0 == JSCell.null)

/-- `Connect4Game.getNextPlayer`: `currentPlayer === 0 ? 1 : 0`. -/
def getNextPlayer (s : C4State) : Nat :=
  if s.currentPlayer == 0 then 1 else 0

/-- One arm of the scanning loop of `Connect4Game.checkGameOver`: starting
at integer coordinates `(x, y)`, walk in direction `(dx, dy)` collecting
consecutive in-board cells owned by `p`.  The fuel argument models the
`count < 3` bound of the source (the walk starts with fuel 3, so at most 3
cells are collected per arm). -/
def collect (b : List (List (Option Nat))) (p : Nat) (dx dy : Int) :
    Int → Int → Nat → List (Nat × Nat)
  | _, _, 0 => []
  | x, y, f + 1 =>
    if c4Owned b p x y then
      (x.toNat, y.toNat) :: collect b p dx dy (x + dx) (y + dy) f
    else []

/-- The four `directions` of `Connect4Game.checkGameOver`: horizontal,
vertical, and the two diagonals. -/
def directions : List (Int × Int) := [(1, 0), (0, 1), (1, 1), (1, -1)]

/-- The `winningCells` array built for one direction: the last-placed cell,
then the walk with multiplier `1`, then the walk with multiplier `-1`. -/
def lineCells (b : List (List (Option Nat))) (p : Nat) (c r : Nat) (dx dy : Int) :
    List (Nat × Nat) :=
  (c, r) ::
    (collect b p dx dy ((c : Int) + dx) ((r : Int) + dy) 3 ++
     collect b p (-dx) (-dy) ((c : Int) - dx) ((r : Int) - dy) 3)

/-- Result object of `Connect4Game.checkGameOver`. -/
inductive OverResult where
  | won (winner : Nat) (cells : List (Nat × Nat))
  | draw
  | notOver
deriving DecidableEq

/-- The body of the direction loop of `Connect4Game.checkGameOver`: the
`winningCells` line for one direction when it reaches length 4, else
nothing. -/
def dirTest (b : List (List (Option Nat))) (p c r : Nat) (d : Int × Int) :
    Option (List (Nat × Nat)) :=
  if 4 ≤ (lineCells b p c r d.1 d.2).length then
    some (lineCells b p c r d.1 d.2)
  else
    none

/-- `Connect4Game.checkGameOver`: for each of the four directions in order,
build the cell line through the last-placed piece; report a win on the first
direction whose line has length at least 4, with the moving player as winner.
Otherwise report a draw when every column's top cell is occupied
(`board.every(column => column[0] !== null)`), else not over. -/
def checkGameOver (s : C4State) (lastColumn lastRow playerIndex : Nat) : OverResult :=
  match directions.findSome? (dirTest s.board playerIndex lastColumn lastRow) with
  | some cells => OverResult.won playerIndex cells
  | none =>
    if s.board.all (fun col => !(col[0]? == some (none : Option Nat))) then
      OverResult.draw
    else
      OverResult.notOver

/-- The falling-piece loop of `Connect4Game.makeMove`:
`for (let r = 5; r >= 0; r--) if (board[column][r] === null) ...` — the
first row, scanning from the bottom (row 5) up, whose cell is strictly equal
to `null`. -/
def landingRow (col : List (Option Nat)) : Option Nat :=
  (List.range 6).reverse.find? (fun r => col[r]? == some (none : Option Nat))

/-- The board after the falling-piece loop: place `p` at the landing row of
`column`, or leave the board untouched when the loop finds no empty cell
(the source then also places nothing). -/
def placeBoard (b : List (List (Option Nat))) (p : Nat) (column : Nat) :
    List (List (Option Nat)) :=
  match landingRow (b.getD column []) with
  | some r => b.set column ((b.getD column []).set r (some p))
  | none => b

/-- `Connect4Game.makeMove`: reject invalid moves by returning the same state
object (modelled as `none`); otherwise clone the board and scan the chosen
column from row 5 up to row 0 for the first empty cell, placing the piece
there (the source initializes `row = 0` and places nothing when no empty cell
exists, which a valid move rules out); then apply `checkGameOver` at the
landing cell: on a terminal result set status / winner / cells, else advance
`currentPlayer`. -/
def makeMove (s : C4State) (playerIndex : Nat) (move : C4Move) : Option C4State :=
  if isValidMove s playerIndex move then
    let column := move.column.toNat
    let row := (landingRow (s.board.getD column [])).getD 0
    let s1 : C4State := { s with board := placeBoard s.board playerIndex column }
    match checkGameOver s1 column row playerIndex with
    | OverResult.won w cells =>
      some { s1 with status := Status.won, winner := some w, winningCells := some cells }
    | OverResult.draw =>
      some { s1 with status := Status.draw, winner := none, winningCells := none }
    | OverResult.notOver =>
      some { s1 with currentPlayer := getNextPlayer s1 }
  else
    none

/-- `Connect4Game.getMaxPlayers`. -/
def getMaxPlayers : Nat := 2

end Connect4Game

/-- Connect-four player attributes: `{ color: 'red' | 'yellow' }`. -/
structure C4Attrs where
  color : String
deriving DecidableEq

/-- `Connect4Game.getPlayerSetup`: seat 0 is red, any other seat yellow. -/
def Connect4Game.getPlayerSetup (playerIndex : Nat) : C4Attrs :=
  { color := match playerIndex with | 0 => "red" | _ => "yellow" }

/-- A seated player record held in a room: connection id, display name,
seat index, and the game-specific attributes from `getPlayerSetup`. -/
structure PlayerRec (π : Type) where
  id : String
  username : String
  index : Nat
  attrs : π
deriving DecidableEq

/-- A spectator record held in a room. -/
structure SpectatorRec where
  id : String
  username : String
deriving DecidableEq

/-- A room record of the in-memory registry (identifier and game-type tag
omitted: the handlers below are already specialized to one room and one
engine). -/
structure Room (σ π : Type) where
  players : List (PlayerRec π)
  spectators : List SpectatorRec
  gameState : σ
deriving DecidableEq

/-- A rules engine instance, the capability record the coordinator calls
through.  `makeMove` returns `none` to model the source returning the same
state object on an invalid move.  `setStatus` models the coordinator's
direct assignment `gameState.status = ...`, which both concrete state shapes
support. -/
structure Engine (σ μ π : Type) where
  init : σ
  makeMove : σ → Nat → μ → Option σ
  getMaxPlayers : Nat
  getPlayerSetup : Nat → π
  setStatus : σ → Status → σ

/-- The tic-tac-toe engine instance. -/
def tttEngine : Engine TTTState TTTMove TTTAttrs :=
  { init := TicTacToeGame.init
    makeMove := TicTacToeGame.makeMove
    getMaxPlayers := TicTacToeGame.getMaxPlayers
    getPlayerSetup := TicTacToeGame.getPlayerSetup
    setStatus := fun s st => { s with status := st } }

/-- The connect-four engine instance. -/
def c4Engine : Engine C4State C4Move C4Attrs :=
  { init := Connect4Game.init
    makeMove := Connect4Game.makeMove
    getMaxPlayers := Connect4Game.getMaxPlayers
    getPlayerSetup := Connect4Game.getPlayerSetup
    setStatus := fun s st => { s with status := st } }

/-- The player record built by the `joinRoom` handler: the joiner is seated
at index `players.length` with the engine's `getPlayerSetup` attributes. -/
def joinedPlayer {σ μ π : Type} (eng : Engine σ μ π) (room : Room σ π)
    (cid username : String) : PlayerRec π :=
  { id := cid, username := username, index := room.players.length
    attrs := eng.getPlayerSetup room.players.length }

/-- The `joinRoom` handler, for an existing room: a full room admits the
joiner as a spectator; otherwise the joiner is seated at index
`players.length`, and once `players.length >= 2` (checked after the push)
the handler directly sets `gameState.status = 'playing'`. -/
def joinHandler {σ μ π : Type} (eng : Engine σ μ π) (room : Room σ π)
    (cid username : String) : Room σ π :=
  if eng.getMaxPlayers ≤ room.players.length then
    { room with spectators := room.spectators ++ [{ id := cid, username := username }] }
  else
    if 2 ≤ (room.players ++ [joinedPlayer eng room cid username]).length then
      { room with players := room.players ++ [joinedPlayer eng room cid username]
                  gameState := eng.setStatus room.gameState Status.playing }
    else
      { room with players := room.players ++ [joinedPlayer eng room cid username] }

/-- The `makeMove` handler: resolve the sender to a seated player (a
non-player sender is a silent no-op), delegate to the engine, and store and
broadcast the returned state only when it differs by identity from the
stored one.  The boolean is true when a `gameStateUpdate` broadcast is
emitted. -/
def moveHandler {σ μ π : Type} (eng : Engine σ μ π) (room : Room σ π)
    (cid : String) (mv : μ) : Room σ π × Bool :=
  match room.players.find? (fun p => p.id == cid) with
  | none => (room, false)
  | some pl =>
    match eng.makeMove room.gameState pl.index mv with
    | none => (room, false)
    | some s1 => ({ room with gameState := s1 }, true)

/-- The `resetGame` handler: replace the game state by `init()` and then
directly force `gameState.status = 'playing'`.  The sender is not inspected
at all (any connection, including a spectator, may reset). -/
def resetHandler {σ μ π : Type} (eng : Engine σ μ π) (room : Room σ π)
    (_senderId : String) : Room σ π :=
  { room with gameState := eng.setStatus eng.init Status.playing }

/-- The `disconnect` handler, restricted to one room: a disconnecting player
is unseated — if no player remains the room is deleted (`none`), otherwise
the handler directly sets `gameState.status = 'waiting'`; a disconnecting
spectator is removed silently; an unknown connection changes nothing. -/
def disconnectHandler {σ μ π : Type} (eng : Engine σ μ π) (room : Room σ π)
    (cid : String) : Option (Room σ π) :=
  match room.players.findIdx? (fun p => p.id == cid) with
  | some i =>
    let players1 := room.players.eraseIdx i
    if players1.length == 0 then
      none
    else
      some { room with players := players1
                       gameState := eng.setStatus room.gameState Status.waiting }
  | none =>
    match room.spectators.findIdx? (fun sp => sp.id == cid) with
    | some j => some { room with spectators := room.spectators.eraseIdx j }
    | none => some room

/-- An inbound coordinator event for an existing room. -/
inductive Event (μ : Type) where
  | join (cid username : String)
  | move (cid : String) (mv : μ)
  | reset (cid : String)
  | disconnect (cid : String)

/-- One coordinator step on an existing room (`none` = room deleted). -/
def handleEvent {σ μ π : Type} (eng : Engine σ μ π) (room : Room σ π) :
    Event μ → Option (Room σ π)
  | Event.join cid username => some (joinHandler eng room cid username)
  | Event.move cid mv => some (moveHandler eng room cid mv).1
  | Event.reset cid => some (resetHandler eng room cid)
  | Event.disconnect cid => disconnectHandler eng room cid

/-- Spec-side win predicate for tic-tac-toe, following the spec's words: one
of the eight fixed triples has all three cells non-empty and owned by the
same player. -/
def tttSpecWin (b : List (Option Nat)) : Prop :=
  ∃ pat ∈ TicTacToeGame.winPatterns, ∃ q : Nat,
    b[pat.1]? = some (some q) ∧ b[pat.2.1]? = some (some q) ∧ b[pat.2.2]? = some (some q)

/-- Spec-side win predicate for connect-four, following the spec's words:
one of the four lines (horizontal, vertical, the two diagonals) passing
through the last-placed cell `(c, r)` contains 4 or more contiguous cells
owned by player `p` — a segment extending `i` cells one way and `j` cells
the other way from the placed cell, with `i + j + 1 ≥ 4`. -/
def c4SpecWin (b : List (List (Option Nat))) (p : Nat) (c r : Nat) : Prop :=
  ∃ d ∈ Connect4Game.directions, ∃ i j : Nat,
    4 ≤ i + j + 1 ∧
    (∀ k : Nat, k ≤ i → c4Owned b p ((c : Int) - k * d.1) ((r : Int) - k * d.2)) ∧
    (∀ k : Nat, k ≤ j → c4Owned b p ((c : Int) + k * d.1) ((r : Int) + k * d.2))

/-- A fresh tic-tac-toe state with both seats filled (status playing). -/
def tttPlaying : TTTState := { TicTacToeGame.init with status := Status.playing }

/-- The state after player 0 plays cell 4 from `tttPlaying`. -/
def tttAfter4 : TTTState :=
  { tttPlaying with board := tttPlaying.board.set 4 (some 0), currentPlayer := 1 }

/-- A fresh connect-four state with both seats filled (status playing). -/
def c4Playing : C4State := { Connect4Game.init with status := Status.playing }

/-- States of the column-fill scenario: `colDropState k` is the state after
`k` consecutive drops into column 0 by alternating players (drop `k + 1` is
made by player `k % 2`), starting from a fresh playing state.  A rejected
drop leaves the state unchanged, as in the coordinator. -/
def colDropState : Nat → C4State
  | 0 => c4Playing
  | k + 1 =>
    (Connect4Game.makeMove (colDropState k) (k % 2) ⟨0⟩).getD (colDropState k)

/-- Connection identifiers and display names used in the concrete rooms. -/
def cidA : String := "a"

def cidB : String := "b"

def cidC : String := "c"

def nameA : String := "Alice"

def nameB : String := "Bob"

def nameC : String := "Carol"

/-- A full two-seat tic-tac-toe room with one spectator, game in progress. -/
def roomAB : Room TTTState TTTAttrs :=
  { players :=
      [{ id := cidA, username := nameA, index := 0, attrs := TicTacToeGame.getPlayerSetup 0 },
       { id := cidB, username := nameB, index := 1, attrs := TicTacToeGame.getPlayerSetup 1 }]
    spectators := [{ id := cidC, username := nameC }]
    gameState := tttPlaying }

/-- The same room after one move has been played. -/
def roomC9 : Room TTTState TTTAttrs := { roomAB with gameState := tttAfter4 }

/-- A one-seat tic-tac-toe room still waiting for its second player. -/
def roomSolo : Room TTTState TTTAttrs :=
  { players :=
      [{ id := cidA, username := nameA, index := 0, attrs := TicTacToeGame.getPlayerSetup 0 }]
    spectators := []
    gameState := TicTacToeGame.init }

/-- A finished board: row `[3, 4, 5]` fully owned by player 0. -/
def tttWonState : TTTState :=
  { board := [some 1, some 1, none, some 0, some 0, some 0, none, none, none]
    currentPlayer := 0
    winner := some 0
    status := Status.won
    winningPattern := some [3, 4, 5] }

/-! ## Helper lemmas -/

theorem tttMakeMove_of_invalid (s : TTTState) (p : Nat) (m : TTTMove)
    (h : TicTacToeGame.isValidMove s p m = false) :
    TicTacToeGame.makeMove s p m = none := by
  simp [TicTacToeGame.makeMove, h]

theorem c4MakeMove_of_invalid (s : C4State) (p : Nat) (m : C4Move)
    (h : Connect4Game.isValidMove s p m = false) :
    Connect4Game.makeMove s p m = none := by
  simp [Connect4Game.makeMove, h]

theorem tttValid_of_makeMove_some (s : TTTState) (p : Nat) (m : TTTMove) (s1 : TTTState)
    (h : TicTacToeGame.makeMove s p m = some s1) :
    TicTacToeGame.isValidMove s p m = true := by
  by_cases hv : TicTacToeGame.isValidMove s p m = true
  · exact hv
  · rw [Bool.not_eq_true] at hv
    rw [tttMakeMove_of_invalid s p m hv] at h
    exact absurd h (by simp)

theorem c4Valid_of_makeMove_some (s : C4State) (p : Nat) (m : C4Move) (s1 : C4State)
    (h : Connect4Game.makeMove s p m = some s1) :
    Connect4Game.isValidMove s p m = true := by
  by_cases hv : Connect4Game.isValidMove s p m = true
  · exact hv
  · rw [Bool.not_eq_true] at hv
    rw [c4MakeMove_of_invalid s p m hv] at h
    exact absurd h (by simp)

/-! ## Claims C3, C7, C9, C10 -/

/-- Claim C3: whenever `isValidMove` is false, `makeMove` returns the very
same state object (returning the same reference is modelled by `none`), for
both engines; and the coordinator's move handler stores a new state and
broadcasts exactly when the engine returns a state that differs by identity
from the stored one — on an invalid move the stored state is unchanged and
nothing is broadcast. -/
theorem claim_C3_invalid_move_noop :
    (∀ (s : TTTState) (p : Nat) (m : TTTMove),
      TicTacToeGame.isValidMove s p m = false → TicTacToeGame.makeMove s p m = none) ∧
    (∀ (s : C4State) (p : Nat) (m : C4Move),
      Connect4Game.isValidMove s p m = false → Connect4Game.makeMove s p m = none) ∧
    (∀ (σ μ π : Type) (eng : Engine σ μ π) (room : Room σ π) (cid : String) (mv : μ)
        (pl : PlayerRec π),
      room.players.find? (fun p => p.id == cid) = some pl →
        (eng.makeMove room.gameState pl.index mv = none →
          moveHandler eng room cid mv = (room, false)) ∧
        (∀ s1 : σ, eng.makeMove room.gameState pl.index mv = some s1 →
          moveHandler eng room cid mv = ({ room with gameState := s1 }, true))) := by
  refine ⟨tttMakeMove_of_invalid, c4MakeMove_of_invalid, ?_⟩
  intro σ μ π eng room cid mv pl hfind
  constructor
  · intro hmm
    simp [moveHandler, hfind, hmm]
  · intro s1 hmm
    simp [moveHandler, hfind, hmm]

/-- Witness for C3 at a concrete input: in `roomAB` it is player 0's turn,
so a move by seat 1 (connection `cidB`) is invalid, `makeMove` signals the
same-object return, and the handler neither stores nor broadcasts. -/
theorem claim_C3_witness :
    TicTacToeGame.makeMove tttPlaying 1 ⟨4⟩ = none ∧
    moveHandler tttEngine roomAB cidB ⟨4⟩ = (roomAB, false) := by
  constructor
  · exact claim_C3_invalid_move_noop.1 tttPlaying 1 ⟨4⟩ (by decide)
  · exact (claim_C3_invalid_move_noop.2.2 TTTState TTTMove TTTAttrs tttEngine roomAB cidB ⟨4⟩
      { id := cidB, username := nameB, index := 1, attrs := TicTacToeGame.getPlayerSetup 1 }
      (by decide)).1 (claim_C3_invalid_move_noop.1 tttPlaying 1 ⟨4⟩ (by decide))

/-- Claim C7: for every room (any seat count), the reset handler replaces
the game state by a fresh `init()` state with status forced to playing —
its board empty — and leaves the player and spectator lists unchanged.
Stated for both engine instances. -/
theorem claim_C7_reset_handler (roomT : Room TTTState TTTAttrs) (roomC : Room C4State C4Attrs)
    (sT sC : String) :
    (resetHandler tttEngine roomT sT).players = roomT.players ∧
    (resetHandler tttEngine roomT sT).spectators = roomT.spectators ∧
    (resetHandler tttEngine roomT sT).gameState =
      { TicTacToeGame.init with status := Status.playing } ∧
    (resetHandler tttEngine roomT sT).gameState.board = List.replicate 9 none ∧
    (resetHandler tttEngine roomT sT).gameState.status = Status.playing ∧
    (resetHandler c4Engine roomC sC).players = roomC.players ∧
    (resetHandler c4Engine roomC sC).spectators = roomC.spectators ∧
    (resetHandler c4Engine roomC sC).gameState =
      { Connect4Game.init with status := Status.playing } ∧
    (resetHandler c4Engine roomC sC).gameState.board =
      List.replicate 7 (List.replicate 6 none) ∧
    (resetHandler c4Engine roomC sC).gameState.status = Status.playing :=
  ⟨rfl, rfl, rfl, rfl, rfl, rfl, rfl, rfl, rfl, rfl⟩

/-- Counterexample to claim C9 as stated: connection `cidC` is a spectator
of `roomC9` (not a seated player), yet handling its `resetGame` event
changes the room's game state — the reset handler never inspects the
sender. -/
theorem claim_C9_counterexample :
    (∀ pl ∈ roomC9.players, pl.id ≠ cidC) ∧
    (∃ sp ∈ roomC9.spectators, sp.id = cidC) ∧
    (resetHandler tttEngine roomC9 cidC).gameState ≠ roomC9.gameState := by
  refine ⟨by decide, ⟨{ id := cidC, username := nameC }, by decide, rfl⟩, by decide⟩

/-- Claim C9 (amended): a connection that is not a seated player — in
particular a spectator — cannot change the game state through a *move*
event: the move handler returns the room unchanged and broadcasts nothing.
(The `resetGame` handler, by contrast, performs no sender check, so a
spectator's reset does replace the game state.) -/
theorem claim_C9_spectators_cannot_move {σ μ π : Type} (eng : Engine σ μ π)
    (room : Room σ π) (cid : String) (mv : μ)
    (h : room.players.find? (fun p => p.id == cid) = none) :
    moveHandler eng room cid mv = (room, false) := by
  simp [moveHandler, h]

/-- Witness for the amended C9: the spectator `cidC` sends a move into
`roomC9`; the room is returned unchanged and nothing is broadcast. -/
theorem claim_C9_witness :
    moveHandler tttEngine roomC9 cidC ⟨0⟩ = (roomC9, false) :=
  claim_C9_spectators_cannot_move tttEngine roomC9 cidC ⟨0⟩ (by decide)

/-- Claim C10: on a 9-cell board, a move whose cell index lies outside 0–8
is rejected by `isValidMove` — the out-of-range read yields `undefined`,
which is never strictly equal to `null`, so the occupied-cell test fails —
and `makeMove` returns the same state (modelled by `none`). -/
theorem claim_C10_out_of_range_rejected (s : TTTState) (p : Nat) (m : TTTMove)
    (hlen : s.board.length = 9) (hout : m.index < 0 ∨ 8 < m.index) :
    TicTacToeGame.isValidMove s p m = false ∧ TicTacToeGame.makeMove s p m = none := by
  have hcell : jsIndex s.board m.index = JSCell.undef := by
    rcases hout with h | h
    · simp [jsIndex, h]
    · have hle : s.board.length ≤ m.index.toNat := by omega
      rw [jsIndex, if_neg (by omega), jsCellAt, List.getElem?_eq_none hle]
  have hval : TicTacToeGame.isValidMove s p m = false := by
    simp [TicTacToeGame.isValidMove, hcell]
  exact ⟨hval, tttMakeMove_of_invalid s p m hval⟩

/-- Witness for C10 at the concrete out-of-range index 9. -/
theorem claim_C10_witness :
    TicTacToeGame.isValidMove tttPlaying 0 ⟨9⟩ = false ∧
    TicTacToeGame.makeMove tttPlaying 0 ⟨9⟩ = none :=
  claim_C10_out_of_range_rejected tttPlaying 0 ⟨9⟩ (by decide) (Or.inr (by decide))

/-! ## Claim C4 -/

/-- Claim C4: along any sequence of valid moves `currentPlayer` alternates —
a valid move that does not end the game advances `currentPlayer` to
`(current + 1) mod 2`, and a valid move that produces a terminal state (won
or draw) leaves `currentPlayer` unchanged.  Stated per move, for both
engines, for the seat indices 0 and 1 between which the claim says the turn
alternates. -/
theorem claim_C4_turn_alternation :
    (∀ (s : TTTState) (p : Nat) (m : TTTMove) (s1 : TTTState),
      s.currentPlayer < 2 → TicTacToeGame.makeMove s p m = some s1 →
        ((s1.status = Status.won ∨ s1.status = Status.draw) →
          s1.currentPlayer = s.currentPlayer) ∧
        (¬(s1.status = Status.won ∨ s1.status = Status.draw) →
          s1.currentPlayer = (s.currentPlayer + 1) % 2)) ∧
    (∀ (s : C4State) (p : Nat) (m : C4Move) (s1 : C4State),
      s.currentPlayer < 2 → Connect4Game.makeMove s p m = some s1 →
        ((s1.status = Status.won ∨ s1.status = Status.draw) →
          s1.currentPlayer = s.currentPlayer) ∧
        (¬(s1.status = Status.won ∨ s1.status = Status.draw) →
          s1.currentPlayer = (s.currentPlayer + 1) % 2)) := by
  constructor
  · intro s p m s1 hcp hmm
    have hv := tttValid_of_makeMove_some s p m s1 hmm
    have hplay : s.status = Status.playing := by
      have h2 := hv
      simp only [TicTacToeGame.isValidMove, Bool.and_eq_true, beq_iff_eq] at h2
      exact h2.1.2
    rw [TicTacToeGame.makeMove, if_pos hv] at hmm
    rcases hco : TicTacToeGame.checkGameOver
        { s with board := s.board.set m.index.toNat (some p) } with ⟨w, pat⟩ | - | - <;>
      simp only [hco, Option.some.injEq] at hmm <;> subst hmm
    · exact ⟨fun _ => rfl, fun hnt => absurd (Or.inl rfl) hnt⟩
    · exact ⟨fun _ => rfl, fun hnt => absurd (Or.inr rfl) hnt⟩
    · constructor
      · intro ht
        have ht2 : s.status = Status.won ∨ s.status = Status.draw := ht
        rw [hplay] at ht2
        rcases ht2 with h | h <;> exact Status.noConfusion h
      · intro _
        have h2 : s.currentPlayer = 0 ∨ s.currentPlayer = 1 := by omega
        rcases h2 with h2 | h2 <;> simp [TicTacToeGame.getNextPlayer, h2]
  · intro s p m s1 hcp hmm
    have hv := c4Valid_of_makeMove_some s p m s1 hmm
    have hplay : s.status = Status.playing := by
      have h2 := hv
      simp only [Connect4Game.isValidMove, Bool.and_eq_true, beq_iff_eq] at h2
      exact h2.1.1.2
    rw [Connect4Game.makeMove, if_pos hv] at hmm
    rcases hco : Connect4Game.checkGameOver
        { s with board := Connect4Game.placeBoard s.board p m.column.toNat }
        m.column.toNat ((Connect4Game.landingRow (s.board.getD m.column.toNat [])).getD 0) p
      with ⟨w, cells⟩ | - | - <;>
      simp only [hco, Option.some.injEq] at hmm <;> subst hmm
    · exact ⟨fun _ => rfl, fun hnt => absurd (Or.inl rfl) hnt⟩
    · exact ⟨fun _ => rfl, fun hnt => absurd (Or.inr rfl) hnt⟩
    · constructor
      · intro ht
        have ht2 : s.status = Status.won ∨ s.status = Status.draw := ht
        rw [hplay] at ht2
        rcases ht2 with h | h <;> exact Status.noConfusion h
      · intro _
        have h2 : s.currentPlayer = 0 ∨ s.currentPlayer = 1 := by omega
        rcases h2 with h2 | h2 <;> simp [Connect4Game.getNextPlayer, h2]

/-- Witness for C4 at a concrete input: player 0 plays cell 4 from the fresh
playing state; the game is not over, so the turn advances to seat 1. -/
theorem claim_C4_witness :
    TicTacToeGame.makeMove tttPlaying 0 ⟨4⟩ = some tttAfter4 ∧
    tttAfter4.currentPlayer = (tttPlaying.currentPlayer + 1) % 2 := by
  have hm : TicTacToeGame.makeMove tttPlaying 0 ⟨4⟩ = some tttAfter4 := by decide
  exact ⟨hm, (claim_C4_turn_alternation.1 tttPlaying 0 ⟨4⟩ tttAfter4 (by decide) hm).2
    (by decide)⟩

/-! ## Claim C6 -/

/-- Claim C6: in the column-fill scenario (consecutive drops into column 0
by alternating players from a fresh playing state) the column is full after
the 7th drop, and the 8th drop into that column is rejected as a no-op: the
engine signals the same-object return and the stored state is unchanged.
(In fact the column is already full after the 6th drop — the board has six
rows — so the 7th drop is itself already a rejected no-op.) -/
theorem claim_C6_column_fill :
    ((colDropState 7).board.getD 0 []).all
        (fun cell => cell != (none : Option Nat)) = true ∧
    Connect4Game.makeMove (colDropState 7) (7 % 2) ⟨0⟩ = none ∧
    colDropState 8 = colDropState 7 := by
  refine ⟨by decide, by decide, ?_⟩
  show (Connect4Game.makeMove (colDropState 7) (7 % 2) ⟨0⟩).getD (colDropState 7) =
    colDropState 7
  rw [show Connect4Game.makeMove (colDropState 7) (7 % 2) ⟨0⟩ = none from by decide]
  rfl

/-! ## Claim C8 -/

/-- Counterexample to claim C8 as stated: handling a `joinRoom` event on the
one-seat room `roomSolo` produces a stored game state that is not the prior
state, not the engine's `init()` state, and not any state the engine's
`makeMove` can return from the prior state — the coordinator wrote the
status field directly. -/
theorem claim_C8_counterexample :
    ¬((joinHandler tttEngine roomSolo cidB nameB).gameState = roomSolo.gameState ∨
      (joinHandler tttEngine roomSolo cidB nameB).gameState = tttEngine.init ∨
      ∃ (p : Nat) (mv : TTTMove) (s1 : TTTState),
        tttEngine.makeMove roomSolo.gameState p mv = some s1 ∧
        (joinHandler tttEngine roomSolo cidB nameB).gameState = s1) := by
  intro h
  rcases h with h | h | ⟨p, mv, s1, hmm, hst⟩
  · exact absurd h (by decide)
  · exact absurd h (by decide)
  · have hinv : TicTacToeGame.isValidMove roomSolo.gameState p mv = false := by
      have : roomSolo.gameState.status = Status.waiting := rfl
      simp [TicTacToeGame.isValidMove, this]
    have : tttEngine.makeMove roomSolo.gameState p mv = none :=
      tttMakeMove_of_invalid roomSolo.gameState p mv hinv
    rw [this] at hmm
    exact absurd hmm (by simp)

/-- Claim C8 (amended): each coordinator step either leaves the stored game
state unchanged, replaces it by a state returned by the engine's `makeMove`
on the prior state, or replaces/overwrites it with one of the coordinator's
direct status writes: `joinRoom` sets the prior state's status to playing
when the second seat fills, `resetGame` forces status playing on the
engine's `init()` state, and `disconnect` sets the prior state's status to
waiting. -/
theorem claim_C8_state_sources {σ μ π : Type} (eng : Engine σ μ π) (room : Room σ π)
    (e : Event μ) (room1 : Room σ π) (h : handleEvent eng room e = some room1) :
    room1.gameState = room.gameState ∨
    room1.gameState = eng.setStatus room.gameState Status.playing ∨
    room1.gameState = eng.setStatus room.gameState Status.waiting ∨
    room1.gameState = eng.setStatus eng.init Status.playing ∨
    ∃ (p : Nat) (mv : μ) (s1 : σ),
      eng.makeMove room.gameState p mv = some s1 ∧ room1.gameState = s1 := by
  cases e with
  | join cid username =>
    simp only [handleEvent, Option.some.injEq] at h
    subst h
    rw [joinHandler]
    split
    · left; rfl
    · split
      · right; left; rfl
      · left; rfl
  | move cid mv =>
    simp only [handleEvent, Option.some.injEq] at h
    subst h
    rcases hf : room.players.find? (fun p => p.id == cid) with - | pl
    · left
      rw [show moveHandler eng room cid mv = (room, false) from by
        simp [moveHandler, hf]]
    · rcases hmm : eng.makeMove room.gameState pl.index mv with - | s1
      · left
        rw [show moveHandler eng room cid mv = (room, false) from by
          simp [moveHandler, hf, hmm]]
      · right; right; right; right
        refine ⟨pl.index, mv, s1, hmm, ?_⟩
        rw [show moveHandler eng room cid mv = ({ room with gameState := s1 }, true) from by
          simp [moveHandler, hf, hmm]]
  | reset cid =>
    simp only [handleEvent, Option.some.injEq] at h
    subst h
    right; right; right; left; rfl
  | disconnect cid =>
    simp only [handleEvent, disconnectHandler] at h
    rcases hf : room.players.findIdx? (fun p => p.id == cid) with - | i <;>
      simp only [hf] at h
    · rcases hs : room.spectators.findIdx? (fun sp => sp.id == cid) with - | j <;>
        simp only [hs, Option.some.injEq] at h <;> subst h
      · left; rfl
      · left; rfl
    · split at h
      · exact absurd h (by simp)
      · simp only [Option.some.injEq] at h
        subst h
        right; right; left; rfl

/-- Witness for the amended C8 at a concrete input: a reset on `roomSolo`
yields the `init()` state with status forced to playing. -/
theorem claim_C8_witness :
    (resetHandler tttEngine roomSolo cidA).gameState = roomSolo.gameState ∨
    (resetHandler tttEngine roomSolo cidA).gameState =
      tttEngine.setStatus roomSolo.gameState Status.playing ∨
    (resetHandler tttEngine roomSolo cidA).gameState =
      tttEngine.setStatus roomSolo.gameState Status.waiting ∨
    (resetHandler tttEngine roomSolo cidA).gameState =
      tttEngine.setStatus tttEngine.init Status.playing ∨
    ∃ (p : Nat) (mv : TTTMove) (s1 : TTTState),
      tttEngine.makeMove roomSolo.gameState p mv = some s1 ∧
      (resetHandler tttEngine roomSolo cidA).gameState = s1 :=
  claim_C8_state_sources tttEngine roomSolo (Event.reset cidA)
    (resetHandler tttEngine roomSolo cidA) rfl

/-! ## Claim C5 -/

theorem c4Valid_parts (s : C4State) (p : Nat) (m : C4Move)
    (hv : Connect4Game.isValidMove s p m = true) :
    s.currentPlayer = p ∧ s.status = Status.playing ∧ 0 ≤ m.column ∧ m.column < 7 ∧
      c4CellAt s.board m.column.toNat 0 = JSCell.null := by
  simp only [Connect4Game.isValidMove, Bool.and_eq_true, beq_iff_eq,
    decide_eq_true_eq] at hv
  exact ⟨hv.1.1.1, hv.1.1.2, hv.1.2.1, hv.1.2.2, hv.2⟩

theorem c4CellAt_null (b : List (List (Option Nat))) (x y : Nat)
    (h : c4CellAt b x y = JSCell.null) :
    ∃ col, b[x]? = some col ∧ col[y]? = some none := by
  rcases hb : b[x]? with - | col <;> simp only [c4CellAt, hb] at h
  · exact absurd h (by simp)
  · rcases hc : col[y]? with - | cell <;> simp only [hc] at h
    · exact absurd h (by simp)
    · rcases cell with - | n
      · exact ⟨col, rfl, hc⟩
      · exact absurd h (by simp)

theorem landingRow_spec (col : List (Option Nat)) (h0 : col[0]? = some none) :
    ∃ row, Connect4Game.landingRow col = some row ∧ row < 6 ∧ col[row]? = some none ∧
      ∀ r1 : Nat, row < r1 → r1 < 6 → col[r1]? ≠ some none := by
  have hrev : (List.range 6).reverse = [5, 4, 3, 2, 1, 0] := by decide
  rw [Connect4Game.landingRow, hrev]
  cases e5 : (col[5]? == some (none : Option Nat)) with
  | true =>
    exact ⟨5, by simp [List.find?, e5], by omega, by simpa using e5,
      fun r1 h1 h2 => absurd h1 (by omega)⟩
  | false =>
    cases e4 : (col[4]? == some (none : Option Nat)) with
    | true =>
      refine ⟨4, by simp [List.find?, e5, e4], by omega, by simpa using e4, ?_⟩
      intro r1 h1 h2
      interval_cases r1
      · simpa using e5
    | false =>
      cases e3 : (col[3]? == some (none : Option Nat)) with
      | true =>
        refine ⟨3, by simp [List.find?, e5, e4, e3], by omega, by simpa using e3, ?_⟩
        intro r1 h1 h2
        interval_cases r1
        · simpa using e4
        · simpa using e5
      | false =>
        cases e2 : (col[2]? == some (none : Option Nat)) with
        | true =>
          refine ⟨2, by simp [List.find?, e5, e4, e3, e2], by omega, by simpa using e2, ?_⟩
          intro r1 h1 h2
          interval_cases r1
          · simpa using e3
          · simpa using e4
          · simpa using e5
        | false =>
          cases e1 : (col[1]? == some (none : Option Nat)) with
          | true =>
            refine ⟨1, by simp [List.find?, e5, e4, e3, e2, e1], by omega,
              by simpa using e1, ?_⟩
            intro r1 h1 h2
            interval_cases r1
            · simpa using e2
            · simpa using e3
            · simpa using e4
            · simpa using e5
          | false =>
            refine ⟨0, by simp [List.find?, e5, e4, e3, e2, e1, h0], by omega, h0, ?_⟩
            intro r1 h1 h2
            interval_cases r1
            · simpa using e1
            · simpa using e2
            · simpa using e3
            · simpa using e4
            · simpa using e5

theorem c4MakeMove_eq (s : C4State) (p : Nat) (m : C4Move)
    (hv : Connect4Game.isValidMove s p m = true) :
    Connect4Game.makeMove s p m =
      match Connect4Game.checkGameOver
          { s with board := Connect4Game.placeBoard s.board p m.column.toNat }
          m.column.toNat
          ((Connect4Game.landingRow (s.board.getD m.column.toNat [])).getD 0) p with
      | Connect4Game.OverResult.won w cells =>
        some { s with
               board := Connect4Game.placeBoard s.board p m.column.toNat
               status := Status.won
               winner := some w
               winningCells := some cells }
      | Connect4Game.OverResult.draw =>
        some { s with
               board := Connect4Game.placeBoard s.board p m.column.toNat
               status := Status.draw
               winner := none
               winningCells := none }
      | Connect4Game.OverResult.notOver =>
        some { s with
               board := Connect4Game.placeBoard s.board p m.column.toNat
               currentPlayer := Connect4Game.getNextPlayer
                 { s with board := Connect4Game.placeBoard s.board p m.column.toNat } } := by
  rw [Connect4Game.makeMove, if_pos hv]

/-- Claim C5: a valid connect-four move places the piece at the lowest empty
row of its column — exactly one cell changes, from empty to the mover's
index, and every cell below the landing row is occupied; and a move on a
column whose top cell is occupied is rejected as invalid. -/
theorem claim_C5_lowest_empty_row :
    (∀ (s : C4State) (p : Nat) (m : C4Move), Connect4Game.isValidMove s p m = true →
      ∃ (s1 : C4State) (row : Nat),
        Connect4Game.makeMove s p m = some s1 ∧ row < 6 ∧
        (s.board.getD m.column.toNat [])[row]? = some none ∧
        s1.board = s.board.set m.column.toNat
          ((s.board.getD m.column.toNat []).set row (some p)) ∧
        (∀ r1 : Nat, row < r1 → r1 < 6 →
          (s.board.getD m.column.toNat [])[r1]? ≠ some none)) ∧
    (∀ (s : C4State) (p : Nat) (m : C4Move) (q : Nat),
      c4CellAt s.board m.column.toNat 0 = JSCell.player q →
      Connect4Game.isValidMove s p m = false) := by
  constructor
  · intro s p m hv
    obtain ⟨hcp, hst, hb0, hb7, hcell⟩ := c4Valid_parts s p m hv
    obtain ⟨col0, hbcol, hcol0⟩ := c4CellAt_null s.board m.column.toNat 0 hcell
    have hgetD : s.board.getD m.column.toNat [] = col0 := by
      rw [List.getD_eq_getElem?_getD, hbcol]; rfl
    obtain ⟨row, hrow, hrlt, hrempty, habove⟩ := landingRow_spec col0 hcol0
    have hplace : Connect4Game.placeBoard s.board p m.column.toNat =
        s.board.set m.column.toNat (col0.set row (some p)) := by
      rw [Connect4Game.placeBoard, hgetD, hrow]
    rw [c4MakeMove_eq s p m hv]
    rcases hco : Connect4Game.checkGameOver
        { s with board := Connect4Game.placeBoard s.board p m.column.toNat }
        m.column.toNat
        ((Connect4Game.landingRow (s.board.getD m.column.toNat [])).getD 0) p
      with ⟨w, cells⟩ | - | - <;>
      refine ⟨_, row, rfl, hrlt, by rw [hgetD]; exact hrempty, by rw [hgetD]; exact hplace,
        fun r1 hgt hlt => by rw [hgetD]; exact habove r1 hgt hlt⟩
  · intro s p m q hq
    simp [Connect4Game.isValidMove, hq]

/-- Witness for C5 at a concrete input: player 0 drops into column 3 of the
fresh playing board and the piece lands at the bottom row (row 5). -/
theorem claim_C5_witness :
    ∃ (s1 : C4State) (row : Nat),
      Connect4Game.makeMove c4Playing 0 ⟨3⟩ = some s1 ∧ row < 6 ∧
      (c4Playing.board.getD (3 : Int).toNat [])[row]? = some none ∧
      s1.board = c4Playing.board.set (3 : Int).toNat
        ((c4Playing.board.getD (3 : Int).toNat []).set row (some 0)) ∧
      (∀ r1 : Nat, row < r1 → r1 < 6 →
        (c4Playing.board.getD (3 : Int).toNat [])[r1]? ≠ some none) :=
  claim_C5_lowest_empty_row.1 c4Playing 0 ⟨3⟩ (by decide)

/-! ## Claim C2 -/

theorem winPatterns_bounds (pat : Nat × Nat × Nat)
    (h : pat ∈ TicTacToeGame.winPatterns) :
    pat.1 < 9 ∧ pat.2.1 < 9 ∧ pat.2.2 < 9 := by
  fin_cases h <;> exact ⟨by decide, by decide, by decide⟩

theorem jsCellAt_player_iff (b : List (Option Nat)) (i : Nat) (q : Nat) :
    jsCellAt b i = JSCell.player q ↔ b[i]? = some (some q) := by
  constructor
  · intro h
    rcases hb : b[i]? with - | cell <;> simp only [jsCellAt, hb] at h
    · exact absurd h (by simp)
    · rcases cell with - | n
      · exact absurd h (by simp)
      · simp only [JSCell.player.injEq] at h
        rw [h]
  · intro h
    simp [jsCellAt, h]

theorem winPred_spec (b : List (Option Nat)) (h9 : b.length = 9)
    (pat : Nat × Nat × Nat) (hmem : pat ∈ TicTacToeGame.winPatterns)
    (hpred : TicTacToeGame.winPred b pat = true) :
    ∃ q : Nat, jsCellAt b pat.1 = JSCell.player q ∧
      b[pat.1]? = some (some q) ∧ b[pat.2.1]? = some (some q) ∧
      b[pat.2.2]? = some (some q) := by
  obtain ⟨hb1, hb2, hb3⟩ := winPatterns_bounds pat hmem
  simp only [TicTacToeGame.winPred, Bool.and_eq_true, bne_iff_ne, beq_iff_eq] at hpred
  obtain ⟨⟨hne, he2⟩, he3⟩ := hpred
  rcases hb : b[pat.1]? with - | cell
  · exact absurd (List.getElem?_eq_none_iff.mp hb) (by omega)
  · rcases cell with - | q
    · exact absurd (by simp [jsCellAt, hb] : jsCellAt b pat.1 = JSCell.null) hne
    · have h1 : jsCellAt b pat.1 = JSCell.player q := (jsCellAt_player_iff b pat.1 q).mpr hb
      refine ⟨q, h1, rfl, ?_, ?_⟩
      · exact (jsCellAt_player_iff b pat.2.1 q).mp (by rw [← he2, h1])
      · exact (jsCellAt_player_iff b pat.2.2 q).mp (by rw [← he3, h1])

/-- Claim C2: for every tic-tac-toe state with its 9-cell board,
`checkGameOver` reports a win exactly when one of the eight fixed triples
has all three cells non-empty and owned by the same player; and whatever win
it reports names such a triple as the highlight with its owner as the
winner. -/
theorem claim_C2_ttt_win_detection (s : TTTState) (h9 : s.board.length = 9) :
    ((∃ w pat, TicTacToeGame.checkGameOver s = TicTacToeGame.OverResult.won w pat) ↔
      tttSpecWin s.board) ∧
    (∀ w pat, TicTacToeGame.checkGameOver s = TicTacToeGame.OverResult.won w pat →
      ∃ p3 ∈ TicTacToeGame.winPatterns, ∃ q : Nat,
        w = JSCell.player q ∧ pat = [p3.1, p3.2.1, p3.2.2] ∧
        s.board[p3.1]? = some (some q) ∧ s.board[p3.2.1]? = some (some q) ∧
        s.board[p3.2.2]? = some (some q)) := by
  have hwon : ∀ w pat, TicTacToeGame.checkGameOver s = TicTacToeGame.OverResult.won w pat →
      ∃ p3 ∈ TicTacToeGame.winPatterns, ∃ q : Nat,
        w = JSCell.player q ∧ pat = [p3.1, p3.2.1, p3.2.2] ∧
        s.board[p3.1]? = some (some q) ∧ s.board[p3.2.1]? = some (some q) ∧
        s.board[p3.2.2]? = some (some q) := by
    intro w pat hres
    rw [TicTacToeGame.checkGameOver] at hres
    rcases hf : TicTacToeGame.winPatterns.find? (TicTacToeGame.winPred s.board)
      with - | p3 <;> simp only [hf] at hres
    · split at hres <;> exact absurd hres (by simp)
    · simp only [TicTacToeGame.OverResult.won.injEq] at hres
      obtain ⟨hw, hpat⟩ := hres
      have hmem := List.mem_of_find?_eq_some hf
      have hpred := List.find?_some hf
      obtain ⟨q, hq1, hq2, hq3, hq4⟩ := winPred_spec s.board h9 p3 hmem hpred
      exact ⟨p3, hmem, q, by rw [← hw, hq1], hpat.symm, hq2, hq3, hq4⟩
  refine ⟨⟨?_, ?_⟩, hwon⟩
  · rintro ⟨w, pat, hres⟩
    obtain ⟨p3, hmem, q, -, -, hq2, hq3, hq4⟩ := hwon w pat hres
    exact ⟨p3, hmem, q, hq2, hq3, hq4⟩
  · rintro ⟨p3, hmem, q, hq1, hq2, hq3⟩
    have hpred : TicTacToeGame.winPred s.board p3 = true := by
      have c1 := (jsCellAt_player_iff s.board p3.1 q).mpr hq1
      have c2 := (jsCellAt_player_iff s.board p3.2.1 q).mpr hq2
      have c3 := (jsCellAt_player_iff s.board p3.2.2 q).mpr hq3
      simp [TicTacToeGame.winPred, c1, c2, c3]
    rcases hf : TicTacToeGame.winPatterns.find? (TicTacToeGame.winPred s.board)
      with - | p4
    · rw [List.find?_eq_none] at hf
      exact absurd hpred (by simpa using hf p3 hmem)
    · exact ⟨jsCellAt s.board p4.1, [p4.1, p4.2.1, p4.2.2],
        by rw [TicTacToeGame.checkGameOver, hf]⟩

/-- Witness for C2 at a concrete input: a board whose row `[3, 4, 5]` is
fully owned by player 0 is reported as won. -/
theorem claim_C2_witness :
    ∃ w pat, TicTacToeGame.checkGameOver tttWonState = TicTacToeGame.OverResult.won w pat :=
  (claim_C2_ttt_win_detection tttWonState (by decide)).1.mpr
    ⟨(3, 4, 5), by decide, 0, by decide, by decide, by decide⟩

/-! ## Claim C1 -/

theorem collect_zero (b : List (List (Option Nat))) (p : Nat) (dx dy x y : Int) :
    Connect4Game.collect b p dx dy x y 0 = [] := rfl

theorem collect_succ (b : List (List (Option Nat))) (p : Nat) (dx dy x y : Int) (f : Nat) :
    Connect4Game.collect b p dx dy x y (f + 1) =
      if c4Owned b p x y then
        (x.toNat, y.toNat) :: Connect4Game.collect b p dx dy (x + dx) (y + dy) f
      else [] := rfl

/-- The walk can collect at most its fuel's worth of cells — with fuel 3,
at most 3 cells per direction arm, as the source's `count < 3` bound. -/
theorem collect_length_le (b : List (List (Option Nat))) (p : Nat) (dx dy : Int) :
    ∀ (f : Nat) (x y : Int), (Connect4Game.collect b p dx dy x y f).length ≤ f := by
  intro f
  induction f with
  | zero => intro x y; simp [collect_zero]
  | succ f ih =>
    intro x y
    rw [collect_succ]
    split
    · have := ih (x + dx) (y + dy)
      simp only [List.length_cons]
      omega
    · simp

/-- Every cell index reached by the walk is an owned in-board cell along the
walk's ray. -/
theorem collect_owned (b : List (List (Option Nat))) (p : Nat) (dx dy : Int) :
    ∀ (f : Nat) (x y : Int) (k : Nat),
      k < (Connect4Game.collect b p dx dy x y f).length →
      c4Owned b p (x + k * dx) (y + k * dy) := by
  intro f
  induction f with
  | zero => intro x y k hk; rw [collect_zero] at hk; exact absurd hk (by simp)
  | succ f ih =>
    intro x y k hk
    rw [collect_succ] at hk
    by_cases ho : c4Owned b p x y
    · rw [if_pos ho] at hk
      simp only [List.length_cons] at hk
      cases k with
      | zero => simpa using ho
      | succ k =>
        have hrec := ih (x + dx) (y + dy) k (by omega)
        have hx : x + dx + (k : Int) * dx = x + ((k + 1 : Nat) : Int) * dx := by
          push_cast; ring
        have hy : y + dy + (k : Int) * dy = y + ((k + 1 : Nat) : Int) * dy := by
          push_cast; ring
        rw [hx, hy] at hrec
        exact hrec
    · rw [if_neg ho] at hk
      exact absurd hk (by simp)

/-- Conversely, an owned ray of length `j` forces the walk to collect
`min fuel j` cells. -/
theorem collect_ge (b : List (List (Option Nat))) (p : Nat) (dx dy : Int) :
    ∀ (f j : Nat) (x y : Int),
      (∀ k : Nat, k < j → c4Owned b p (x + k * dx) (y + k * dy)) →
      min f j ≤ (Connect4Game.collect b p dx dy x y f).length := by
  intro f
  induction f with
  | zero => intro j x y _; simp
  | succ f ih =>
    intro j x y hseg
    cases j with
    | zero => simp
    | succ j =>
      have h0 : c4Owned b p x y := by simpa using hseg 0 (by omega)
      rw [collect_succ, if_pos h0]
      simp only [List.length_cons]
      have hrec := ih j (x + dx) (y + dy) (fun k hk => by
        have hh := hseg (k + 1) (by omega)
        have hx : x + ((k + 1 : Nat) : Int) * dx = x + dx + (k : Int) * dx := by
          push_cast; ring
        have hy : y + ((k + 1 : Nat) : Int) * dy = y + dy + (k : Int) * dy := by
          push_cast; ring
        rw [hx, hy] at hh
        exact hh)
      omega

/-- The built line reaches length 4 exactly when a contiguous owned segment
of length at least 4 through the centre cell exists along this direction. -/
theorem lineCells_length_iff (b : List (List (Option Nat))) (p : Nat) (c r : Nat)
    (dx dy : Int) (hc : c4Owned b p (c : Int) (r : Int)) :
    4 ≤ (Connect4Game.lineCells b p c r dx dy).length ↔
      ∃ i j : Nat, 4 ≤ i + j + 1 ∧
        (∀ k : Nat, k ≤ i → c4Owned b p ((c : Int) - k * dx) ((r : Int) - k * dy)) ∧
        (∀ k : Nat, k ≤ j → c4Owned b p ((c : Int) + k * dx) ((r : Int) + k * dy)) := by
  rw [Connect4Game.lineCells]
  simp only [List.length_cons, List.length_append]
  constructor
  · intro h4
    refine ⟨(Connect4Game.collect b p (-dx) (-dy) ((c : Int) - dx) ((r : Int) - dy) 3).length,
            (Connect4Game.collect b p dx dy ((c : Int) + dx) ((r : Int) + dy) 3).length,
            by omega, ?_, ?_⟩
    · intro k hk
      cases k with
      | zero => simpa using hc
      | succ k =>
        have hrec := collect_owned b p (-dx) (-dy) 3 ((c : Int) - dx) ((r : Int) - dy) k
          (by omega)
        have hx : (c : Int) - dx + (k : Int) * -dx = (c : Int) - ((k + 1 : Nat) : Int) * dx := by
          push_cast; ring
        have hy : (r : Int) - dy + (k : Int) * -dy = (r : Int) - ((k + 1 : Nat) : Int) * dy := by
          push_cast; ring
        rw [hx, hy] at hrec
        exact hrec
    · intro k hk
      cases k with
      | zero => simpa using hc
      | succ k =>
        have hrec := collect_owned b p dx dy 3 ((c : Int) + dx) ((r : Int) + dy) k (by omega)
        have hx : (c : Int) + dx + (k : Int) * dx = (c : Int) + ((k + 1 : Nat) : Int) * dx := by
          push_cast; ring
        have hy : (r : Int) + dy + (k : Int) * dy = (r : Int) + ((k + 1 : Nat) : Int) * dy := by
          push_cast; ring
        rw [hx, hy] at hrec
        exact hrec
  · rintro ⟨i, j, hsum, hminus, hplus⟩
    have h1 : min 3 j ≤
        (Connect4Game.collect b p dx dy ((c : Int) + dx) ((r : Int) + dy) 3).length := by
      refine collect_ge b p dx dy 3 j ((c : Int) + dx) ((r : Int) + dy) (fun k hk => ?_)
      have hh := hplus (k + 1) (by omega)
      have hx : (c : Int) + ((k + 1 : Nat) : Int) * dx = (c : Int) + dx + (k : Int) * dx := by
        push_cast; ring
      have hy : (r : Int) + ((k + 1 : Nat) : Int) * dy = (r : Int) + dy + (k : Int) * dy := by
        push_cast; ring
      rw [hx, hy] at hh
      exact hh
    have h2 : min 3 i ≤
        (Connect4Game.collect b p (-dx) (-dy) ((c : Int) - dx) ((r : Int) - dy) 3).length := by
      refine collect_ge b p (-dx) (-dy) 3 i ((c : Int) - dx) ((r : Int) - dy) (fun k hk => ?_)
      have hh := hminus (k + 1) (by omega)
      have hx : (c : Int) - ((k + 1 : Nat) : Int) * dx = (c : Int) - dx + (k : Int) * -dx := by
        push_cast; ring
      have hy : (r : Int) - ((k + 1 : Nat) : Int) * dy = (r : Int) - dy + (k : Int) * -dy := by
        push_cast; ring
      rw [hx, hy] at hh
      exact hh
    omega

/-- `checkGameOver` reports a win for the mover exactly when the spec-side
win predicate holds at the centre cell (assuming the centre cell is owned by
the mover, as it is right after placement). -/
theorem c4CheckGameOver_won_iff (s : C4State) (c r p : Nat)
    (hc : c4Owned s.board p (c : Int) (r : Int)) :
    (∃ cells, Connect4Game.checkGameOver s c r p = Connect4Game.OverResult.won p cells) ↔
      c4SpecWin s.board p c r := by
  constructor
  · rintro ⟨cells, hres⟩
    rw [Connect4Game.checkGameOver] at hres
    rcases hf : Connect4Game.directions.findSome?
        (Connect4Game.dirTest s.board p c r) with - | cells2 <;> simp only [hf] at hres
    · split at hres <;> exact absurd hres (by simp)
    · obtain ⟨d, hd, hfd⟩ := List.exists_of_findSome?_eq_some hf
      rw [Connect4Game.dirTest] at hfd
      split at hfd
      · rename_i hlen
        exact ⟨d, hd, (lineCells_length_iff s.board p c r d.1 d.2 hc).mp hlen⟩
      · exact absurd hfd (by simp)
  · rintro ⟨d, hd, i, j, hsum, hminus, hplus⟩
    have hlen : 4 ≤ (Connect4Game.lineCells s.board p c r d.1 d.2).length :=
      (lineCells_length_iff s.board p c r d.1 d.2 hc).mpr ⟨i, j, hsum, hminus, hplus⟩
    rcases hf : Connect4Game.directions.findSome?
        (Connect4Game.dirTest s.board p c r) with - | cells
    · exfalso
      rw [List.findSome?_eq_none_iff] at hf
      have hnone := hf d hd
      rw [Connect4Game.dirTest, if_pos hlen] at hnone
      exact absurd hnone (by simp)
    · exact ⟨cells, by rw [Connect4Game.checkGameOver, hf]⟩

/-- Whatever win `checkGameOver` reports names the moving player as winner. -/
theorem c4CheckGameOver_winner (s : C4State) (c r p w : Nat)
    (cells : List (Nat × Nat))
    (h : Connect4Game.checkGameOver s c r p = Connect4Game.OverResult.won w cells) :
    w = p := by
  rw [Connect4Game.checkGameOver] at h
  rcases hf : Connect4Game.directions.findSome? (Connect4Game.dirTest s.board p c r)
    with - | cells2 <;> simp only [hf] at h
  · split at h <;> exact absurd h (by simp)
  · simp only [Connect4Game.OverResult.won.injEq] at h
    exact h.1.symm

/-- `checkGameOver` only reads the board. -/
theorem c4CheckGameOver_congr (s t : C4State) (c r p : Nat) (hb : s.board = t.board) :
    Connect4Game.checkGameOver s c r p = Connect4Game.checkGameOver t c r p := by
  rw [Connect4Game.checkGameOver, Connect4Game.checkGameOver, hb]

/-- Claim C1: applying a valid connect-four move yields a state whose
`checkGameOver` — and hence whose won status — reports a win exactly when
one of the four lines through the just-placed cell carries 4 or more
contiguous cells owned by the mover (a contiguous segment through the placed
cell); the reported winner is always the moving player, and each direction
arm of the scan collects at most 3 additional cells.  `checkGameOver` is
applied as in the source: to the board with the piece placed, before the
status fields are written. -/
theorem claim_C1_c4_win_detection (s : C4State) (p : Nat) (m : C4Move)
    (hv : Connect4Game.isValidMove s p m = true) :
    ∃ (s1 : C4State) (row : Nat),
      Connect4Game.makeMove s p m = some s1 ∧
      s1.board = Connect4Game.placeBoard s.board p m.column.toNat ∧
      c4CellAt (Connect4Game.placeBoard s.board p m.column.toNat)
        m.column.toNat row = JSCell.player p ∧
      ((∃ cells, Connect4Game.checkGameOver
          { s with board := Connect4Game.placeBoard s.board p m.column.toNat }
          m.column.toNat row p = Connect4Game.OverResult.won p cells) ↔
        c4SpecWin (Connect4Game.placeBoard s.board p m.column.toNat)
          p m.column.toNat row) ∧
      (∀ (w : Nat) (cells : List (Nat × Nat)),
        Connect4Game.checkGameOver
          { s with board := Connect4Game.placeBoard s.board p m.column.toNat }
          m.column.toNat row p = Connect4Game.OverResult.won w cells → w = p) ∧
      (s1.status = Status.won ↔
        c4SpecWin (Connect4Game.placeBoard s.board p m.column.toNat)
          p m.column.toNat row) ∧
      (s1.status = Status.won → s1.winner = some p) ∧
      (∀ (dx dy x y : Int),
        (Connect4Game.collect (Connect4Game.placeBoard s.board p m.column.toNat)
          p dx dy x y 3).length ≤ 3) := by
  obtain ⟨hcp, hst, hb0, hb7, hcell⟩ := c4Valid_parts s p m hv
  obtain ⟨col0, hbcol, hcol0⟩ := c4CellAt_null s.board m.column.toNat 0 hcell
  have hgetD : s.board.getD m.column.toNat [] = col0 := by
    rw [List.getD_eq_getElem?_getD, hbcol]; rfl
  obtain ⟨row, hrow, hrlt, hrempty, -⟩ := landingRow_spec col0 hcol0
  have hcollt : m.column.toNat < s.board.length := (List.getElem?_eq_some_iff.mp hbcol).1
  have hrowlt : row < col0.length := (List.getElem?_eq_some_iff.mp hrempty).1
  have hplace : Connect4Game.placeBoard s.board p m.column.toNat =
      s.board.set m.column.toNat (col0.set row (some p)) := by
    rw [Connect4Game.placeBoard, hgetD, hrow]
  have hrowD : (Connect4Game.landingRow (s.board.getD m.column.toNat [])).getD 0 = row := by
    rw [hgetD, hrow]; rfl
  have hcellp : c4CellAt (Connect4Game.placeBoard s.board p m.column.toNat)
      m.column.toNat row = JSCell.player p := by
    rw [hplace]
    simp [c4CellAt, List.getElem?_set_self hcollt, List.getElem?_set_self hrowlt]
  have hcol7 : m.column.toNat < 7 := by omega
  have howned : c4Owned (Connect4Game.placeBoard s.board p m.column.toNat) p
      (m.column.toNat : Int) (row : Int) := by
    refine ⟨Int.ofNat_nonneg _, by exact_mod_cast hcol7, Int.ofNat_nonneg _,
      by exact_mod_cast hrlt, ?_⟩
    simp only [Int.toNat_ofNat]
    exact hcellp
  have hiff := c4CheckGameOver_won_iff
    { s with board := Connect4Game.placeBoard s.board p m.column.toNat }
    m.column.toNat row p howned
  rw [c4MakeMove_eq s p m hv, hrowD]
  rcases hco : Connect4Game.checkGameOver
      { s with board := Connect4Game.placeBoard s.board p m.column.toNat }
      m.column.toNat row p with ⟨w, cells⟩ | - | -
  · have hw : p = w :=
      (c4CheckGameOver_winner _ m.column.toNat row p w cells hco).symm
    subst hw
    refine ⟨_, row, rfl, rfl, hcellp, hiff, ?_, ?_, fun _ => rfl, ?_⟩
    · intro w2 cells2 hh
      exact c4CheckGameOver_winner _ m.column.toNat row p w2 cells2 hh
    · exact ⟨fun _ => hiff.mp ⟨cells, hco⟩, fun _ => rfl⟩
    · intro dx dy x y
      exact collect_length_le _ p dx dy 3 x y
  · refine ⟨_, row, rfl, rfl, hcellp, hiff, ?_, ?_, ?_, ?_⟩
    · intro w2 cells2 hh
      exact c4CheckGameOver_winner _ m.column.toNat row p w2 cells2 hh
    · constructor
      · intro h
        exact absurd h (by simp)
      · intro hspec
        obtain ⟨cells2, hcg⟩ := hiff.mpr hspec
        rw [hco] at hcg
        exact absurd hcg (by simp)
    · intro h
      exact absurd h (by simp)
    · intro dx dy x y
      exact collect_length_le _ p dx dy 3 x y
  · refine ⟨_, row, rfl, rfl, hcellp, hiff, ?_, ?_, ?_, ?_⟩
    · intro w2 cells2 hh
      exact c4CheckGameOver_winner _ m.column.toNat row p w2 cells2 hh
    · constructor
      · intro h
        have h2 : s.status = Status.won := h
        rw [hst] at h2
        exact absurd h2 (by simp)
      · intro hspec
        obtain ⟨cells2, hcg⟩ := hiff.mpr hspec
        rw [hco] at hcg
        exact absurd hcg (by simp)
    · intro h
      have h2 : s.status = Status.won := h
      rw [hst] at h2
      exact absurd h2 (by simp)
    · intro dx dy x y
      exact collect_length_le _ p dx dy 3 x y

/-- Witness for C1 at a concrete input: player 0 drops into column 3 of the
fresh playing board. -/
theorem claim_C1_witness :
    ∃ (s1 : C4State) (row : Nat),
      Connect4Game.makeMove c4Playing 0 ⟨3⟩ = some s1 ∧
      s1.board = Connect4Game.placeBoard c4Playing.board 0 (3 : Int).toNat ∧
      c4CellAt (Connect4Game.placeBoard c4Playing.board 0 (3 : Int).toNat)
        (3 : Int).toNat row = JSCell.player 0 ∧
      ((∃ cells, Connect4Game.checkGameOver
          { c4Playing with board := Connect4Game.placeBoard c4Playing.board 0 (3 : Int).toNat }
          (3 : Int).toNat row 0 = Connect4Game.OverResult.won 0 cells) ↔
        c4SpecWin (Connect4Game.placeBoard c4Playing.board 0 (3 : Int).toNat)
          0 (3 : Int).toNat row) ∧
      (∀ (w : Nat) (cells : List (Nat × Nat)),
        Connect4Game.checkGameOver
          { c4Playing with board := Connect4Game.placeBoard c4Playing.board 0 (3 : Int).toNat }
          (3 : Int).toNat row 0 = Connect4Game.OverResult.won w cells → w = 0) ∧
      (s1.status = Status.won ↔
        c4SpecWin (Connect4Game.placeBoard c4Playing.board 0 (3 : Int).toNat)
          0 (3 : Int).toNat row) ∧
      (s1.status = Status.won → s1.winner = some 0) ∧
      (∀ (dx dy x y : Int),
        (Connect4Game.collect (Connect4Game.placeBoard c4Playing.board 0 (3 : Int).toNat)
          0 dx dy x y 3).length ≤ 3) :=
  claim_C1_c4_win_detection c4Playing 0 ⟨3⟩ (by decide)
